import Mathlib

/-!
Verification development for the fund-anomaly statistical core
(`backend/app/data_loader.py` and `backend/app/anomaly.py`).

The numeric model: Python floats are embedded as `Fl`, an inductive wrapper
around `ℚ` extended with `nan`, `+∞` and `-∞`, whose arithmetic follows the
IEEE-754 rules exercised by the pipeline (division by zero produces a signed
infinity or `nan`, every operation on `nan` produces `nan`, and so on).
Square roots, which are irrational on `ℚ`, are abstracted as an arbitrary
function `NumEnv.sqrtQ`; every theorem below is proved for all such
functions, so in particular for the real square root used by numpy.
-/

namespace FundAnomaly

/-- Model of a Python/numpy float: a finite rational, `nan`, or a signed
infinity. -/
inductive Fl where
  | fin : ℚ → Fl
  | nan : Fl
  | pinf : Fl
  | ninf : Fl
deriving DecidableEq

namespace Fl

/-- Finiteness test, `np.isfinite`. -/
def isFinite : Fl → Bool
  | fin _ => true
  | _ => false

/-- The float NaN test, `pd.isna`. -/
def isNan : Fl → Bool
  | nan => true
  | _ => false

/-- IEEE-754 addition on the modelled values. -/
def add : Fl → Fl → Fl
  | fin a, fin b => fin (a + b)
  | fin _, pinf => pinf
  | fin _, ninf => ninf
  | pinf, fin _ => pinf
  | ninf, fin _ => ninf
  | pinf, pinf => pinf
  | ninf, ninf => ninf
  | _, _ => nan

/-- IEEE-754 subtraction on the modelled values. -/
def sub : Fl → Fl → Fl
  | fin a, fin b => fin (a - b)
  | fin _, pinf => ninf
  | fin _, ninf => pinf
  | pinf, fin _ => pinf
  | ninf, fin _ => ninf
  | pinf, ninf => pinf
  | ninf, pinf => ninf
  | _, _ => nan

/-- IEEE-754 multiplication on the modelled values. -/
def mul : Fl → Fl → Fl
  | fin a, fin b => fin (a * b)
  | fin a, pinf => if 0 < a then pinf else if a < 0 then ninf else nan
  | fin a, ninf => if 0 < a then ninf else if a < 0 then pinf else nan
  | pinf, fin b => if 0 < b then pinf else if b < 0 then ninf else nan
  | ninf, fin b => if 0 < b then ninf else if b < 0 then pinf else nan
  | pinf, pinf => pinf
  | pinf, ninf => ninf
  | ninf, pinf => ninf
  | ninf, ninf => pinf
  | _, _ => nan

/-- IEEE-754 division on the modelled values.  Zero is unsigned in the
model and treated as `+0`, matching the values that reach the divisions in
the pipeline. -/
def div : Fl → Fl → Fl
  | fin a, fin b =>
      if b ≠ 0 then fin (a / b)
      else if 0 < a then pinf else if a < 0 then ninf else nan
  | fin _, pinf => fin 0
  | fin _, ninf => fin 0
  | pinf, fin b => if 0 ≤ b then pinf else ninf
  | ninf, fin b => if 0 ≤ b then ninf else pinf
  | _, _ => nan

/-- Model of `Series.fillna(0)`: replaces `nan` (only) with `0`. -/
def fillna0 : Fl → Fl
  | nan => fin 0
  | x => x

/-- The `df.replace([np.inf, -np.inf], np.nan)` pass followed by
`fillna(0)`: every non-finite value becomes `0`. -/
def sanitize : Fl → Fl
  | fin q => fin q
  | _ => fin 0

end Fl

/-- The irrational ingredients of the pipeline (`np.sqrt` on variances and
the constant `np.sqrt(252)`), abstracted as arbitrary rational-valued data.
Every theorem holds for every instantiation, hence for the real values. -/
structure NumEnv where
  sqrtQ : ℚ → ℚ
  sqrt252 : ℚ

/-! ## `data_loader.compute_rolling_metrics`

One entity's NAV series (a `scheme_code` group of the frame, already sorted
by date; `nav` is non-null after the loader's `dropna`, so it is a plain
rational).  Each derived column is computed raw — with the full `nan`/`±∞`
propagation of pandas — and then passed through the
`replace([inf,-inf],nan)`-plus-`fillna(0)` pass of lines 322-329. -/

/-- Tail of `Series.pct_change`: `r[j] = navs[j]/prev − 1` for each later
element, threading the previous price. -/
def pctAux (prev : ℚ) : List ℚ → List Fl
  | [] => []
  | p :: rest => Fl.sub (Fl.div (Fl.fin p) (Fl.fin prev)) (Fl.fin 1) :: pctAux p rest

/-- Model of `groupby('scheme_code')['nav'].pct_change()` for one group: the first
return is `NaN`, the rest are `nav[i]/nav[i-1] − 1` under float rules. -/
def pctChangeQ : List ℚ → List Fl
  | [] => []
  | p :: rest => Fl.nan :: pctAux p rest

/-- The trailing window of up to `W` values ending at index `i`
(inclusive), as used by `Series.rolling(window=W)`. -/
def windowAt (xs : List Fl) (W i : ℕ) : List Fl :=
  (xs.take (i + 1)).drop (i + 1 - W)

/-- The non-`NaN` observations of a window; `min_periods` counts these. -/
def validObs (w : List Fl) : List Fl := w.filter (fun x => !x.isNan)

/-- Float sum of a list of observations. -/
def sumFl (xs : List Fl) : Fl := xs.foldl Fl.add (Fl.fin 0)

/-- The finite payload of a float (used only on lists already known to be
all-finite). -/
def Fl.toQ : Fl → ℚ
  | Fl.fin q => q
  | _ => 0

/-- Exact mean of a rational list (callers guarantee nonemptiness). -/
def meanQ (xs : List ℚ) : ℚ := xs.sum / xs.length

/-- Sample variance (`ddof=1`, the pandas default); callers guarantee at
least two observations. -/
def sampleVarQ (xs : List ℚ) : ℚ :=
  ((xs.map fun x => (x - meanQ xs) ^ 2).sum) / ((xs.length : ℚ) - 1)

/-- Model of `rolling(window=W, min_periods=5).mean()` at index `i`: `NaN` until
five non-`NaN` observations are in the trailing window, else their mean. -/
def rollingMeanAt (W : ℕ) (returns : List Fl) (i : ℕ) : Fl :=
  let v := validObs (windowAt returns W i)
  if v.length < 5 then Fl.nan else Fl.div (sumFl v) (Fl.fin v.length)

/-- Model of `rolling(window=W, min_periods=5).std()` at index `i`: `NaN` until five
non-`NaN` observations are available, `NaN` when a `±∞` observation poisons
the variance, else the square root of the sample variance. -/
def rollingStdAt (S : NumEnv) (W : ℕ) (returns : List Fl) (i : ℕ) : Fl :=
  let v := validObs (windowAt returns W i)
  if v.length < 5 then Fl.nan
  else if v.all Fl.isFinite then Fl.fin (S.sqrtQ (sampleVarQ (v.map Fl.toQ)))
  else Fl.nan

/-- Raw `(daily_return − rolling_mean) / rolling_std` at index `i`. -/
def zscoreRawAt (S : NumEnv) (W : ℕ) (returns : List Fl) (i : ℕ) : Fl :=
  Fl.div (Fl.sub (returns.getD i Fl.nan) (rollingMeanAt W returns i))
    (rollingStdAt S W returns i)

/-- Raw `rolling_std * np.sqrt(252)` at index `i` (computed from the
unfilled `rolling_std`, exactly as in the source where the `fillna` pass
runs only afterwards). -/
def volatilityRawAt (S : NumEnv) (W : ℕ) (returns : List Fl) (i : ℕ) : Fl :=
  Fl.mul (rollingStdAt S W returns i) (Fl.fin S.sqrt252)

/-- Model of `groupby('scheme_code')['nav'].cummax()` at index `i`. -/
def cummaxAt (navs : List ℚ) : ℕ → ℚ
  | 0 => navs.getD 0 0
  | i + 1 => max (cummaxAt navs i) (navs.getD (i + 1) 0)

/-- Raw `(nav − cummax) / cummax` at index `i`. -/
def drawdownRawAt (navs : List ℚ) (i : ℕ) : Fl :=
  Fl.div (Fl.sub (Fl.fin (navs.getD i 0)) (Fl.fin (cummaxAt navs i)))
    (Fl.fin (cummaxAt navs i))

/-- One row of the processed frame for one entity: the original `nav`, the
six derived metric columns after the final non-finite-replacement pass, and
the helper `cummax` column (which the source keeps in the frame). -/
structure ScoredEntRow where
  nav : ℚ
  daily_return : Fl
  rolling_mean : Fl
  rolling_std : Fl
  zscore : Fl
  volatility : Fl
  cummax : ℚ
  drawdown : Fl
deriving DecidableEq

/-- Row `i` of the processed frame: each raw column value followed by the
source's replacement passes.  `zscore` is additionally `fillna(0)`-ed once
on line 313 before the blanket pass, which the term mirrors. -/
def scoredRowAt (S : NumEnv) (W : ℕ) (navs : List ℚ) (returns : List Fl)
    (i : ℕ) : ScoredEntRow :=
  { nav := navs.getD i 0
    daily_return := Fl.sanitize (returns.getD i Fl.nan)
    rolling_mean := Fl.sanitize (rollingMeanAt W returns i)
    rolling_std := Fl.sanitize (rollingStdAt S W returns i)
    zscore := Fl.sanitize (Fl.fillna0 (zscoreRawAt S W returns i))
    volatility := Fl.sanitize (volatilityRawAt S W returns i)
    cummax := cummaxAt navs i
    drawdown := Fl.sanitize (drawdownRawAt navs i) }

/-- Model of `compute_rolling_metrics` restricted to one entity's ordered NAV
series (the per-group action of every `groupby('scheme_code')` column
computation, followed by the final replacement pass). -/
def computeRollingMetricsEntity (S : NumEnv) (W : ℕ) (navs : List ℚ) :
    List ScoredEntRow :=
  let returns := pctChangeQ navs
  (List.range navs.length).map (scoredRowAt S W navs returns)

/-- A table grouped by entity: each `scheme_code` with its date-ordered NAV
series (the state of the frame after `sort_values(['scheme_code','date'])`). -/
abbrev Table := List (String × List ℚ)

/-- The processed counterpart of a `Table`. -/
abbrev ProcessedTable := List (String × List ScoredEntRow)

/-- The pure part of `compute_rolling_metrics` on a whole grouped table:
entities are processed independently. -/
def computeRollingMetricsTable (S : NumEnv) (W : ℕ) (tbl : Table) :
    ProcessedTable :=
  tbl.map fun e => (e.1, computeRollingMetricsEntity S W e.2)

/-- Model of `compute_rolling_metrics` as actually written, with its module-global
`_processed_cache` made explicit: when the cache holds a table, that table
is returned unchanged and the input is ignored (lines 292-295); otherwise
the table is computed and stored. -/
def computeRollingMetricsCached (S : NumEnv) (W : ℕ)
    (cache : Option ProcessedTable) (tbl : Table) :
    ProcessedTable × Option ProcessedTable :=
  match cache with
  | some t => (t, some t)
  | none =>
      let r := computeRollingMetricsTable S W tbl
      (r, some r)

/-! ## Decimal rounding and fixed-point formatting

Python's `round(x, n)` and the `:.1f` / `:.2f` format specifiers round to
the nearest multiple of `10^-n`, ties to even. -/

/-- Round to the nearest integer, ties to even. -/
def rhe (q : ℚ) : ℤ :=
  if q - (⌊q⌋ : ℚ) < 1 / 2 then ⌊q⌋
  else if 1 / 2 < q - (⌊q⌋ : ℚ) then ⌊q⌋ + 1
  else if ⌊q⌋ % 2 = 0 then ⌊q⌋ else ⌊q⌋ + 1

/-- Python `round(q, prec)`. -/
def roundDec (prec : ℕ) (q : ℚ) : ℚ :=
  (rhe (q * (10 : ℚ) ^ prec) : ℚ) / (10 : ℚ) ^ prec

/-- Python `round(q, 2)`, the rounding used throughout `anomaly.py`. -/
def round2 (q : ℚ) : ℚ := roundDec 2 q

/-- Python `round(x, 2)` on a float: `nan` and the infinities round to
themselves. -/
def roundFl2 : Fl → Fl
  | Fl.fin q => Fl.fin (round2 q)
  | x => x

/-- Left-pad a digit string with zeros to the given width. -/
def padZeros (s : String) (n : ℕ) : String :=
  String.mk (List.replicate (n - s.length) '0') ++ s

/-- The `:.precf` fixed-point format of a rational. -/
def fmtFixed (prec : ℕ) (q : ℚ) : String :=
  let m : ℤ := rhe (q * (10 : ℚ) ^ prec)
  let a : ℕ := m.natAbs
  let ip : ℕ := a / 10 ^ prec
  let fp : ℕ := a % 10 ^ prec
  (if m < 0 then "-" else "") ++ toString ip ++
    (if prec = 0 then "" else "." ++ padZeros (toString fp) prec)

/-! ## `anomaly.py`: classifier, explanations, confidence, risk profile -/

/-- The module constant `ZSCORE_THRESHOLD`. -/
def ZSCORE_THRESHOLD : ℚ := 2

/-- The module constant `HIGH_SEVERITY_THRESHOLD`. -/
def HIGH_SEVERITY_THRESHOLD : ℚ := 3

/-- A row of the processed frame as consumed by `anomaly.py`: the derived
metric columns are finite rationals (the loader's replacement pass
guarantees it, see `C1_no_nonfinite_output`). -/
structure ScoredRow where
  scheme_code : String
  date : ℤ
  nav : ℚ
  daily_return : ℚ
  zscore : ℚ
  volatility : ℚ
  drawdown : ℚ
deriving DecidableEq

/-- A row after `detect_anomalies` added its columns. -/
structure ClassifiedRow where
  scheme_code : String
  date : ℤ
  nav : ℚ
  daily_return : ℚ
  zscore : ℚ
  volatility : ℚ
  drawdown : ℚ
  is_anomaly : Bool
  severity : String
  anomaly_direction : String
  explanation : String
deriving DecidableEq

/-- The `severity` column: `'normal'` everywhere, overwritten with
`'medium'` where `|zscore| > zscore_threshold`, then overwritten with
`'high'` where `|zscore| > HIGH_SEVERITY_THRESHOLD` (lines 37-39; the later
assignment wins). -/
def severityOf (τ z : ℚ) : String :=
  let s := "normal"
  let s := if |z| > τ then "medium" else s
  let s := if |z| > HIGH_SEVERITY_THRESHOLD then "high" else s
  s

/-- The `anomaly_direction` column: `'none'` everywhere, overwritten with
`'up'` on anomalous rows with positive z-score, then with `'down'` on
anomalous rows with negative z-score (lines 42-44). -/
def directionOf (τ z : ℚ) : String :=
  let ia := |z| > τ
  let d := "none"
  let d := if ia ∧ 0 < z then "up" else d
  let d := if ia ∧ z < 0 then "down" else d
  d

/-- Model of `generate_explanation` on one row (its `is_anomaly`, `zscore`,
fractional `daily_return` and `severity` fields). -/
def generateExplanation (is_anom : Bool) (zscore daily_return_frac : ℚ)
    (severity : String) : String :=
  if !is_anom then "Normal market behavior"
  else
    let daily_return := daily_return_frac * 100
    let direction := if 0 < zscore then "increase" else "decrease"
    let severity_text := if severity = "high" then "Significant" else "Moderate"
    let es := [severity_text ++ " NAV " ++ direction ++ " detected",
      "Unusual deviation from rolling mean (z-score: " ++ fmtFixed 1 |zscore| ++ ")"]
    let es := if |daily_return| > 3 then
      es ++ ["Daily return of " ++ fmtFixed 2 daily_return ++ "% exceeds normal range"]
      else es
    let es := if severity = "high" then es ++ ["Recommend immediate review"] else es
    String.intercalate ". " es

/-- The row-wise action of `detect_anomalies`: every added column is a
row-parallel (vectorised or `apply(axis=1)`) computation. -/
def classifyRow (τ : ℚ) (r : ScoredRow) : ClassifiedRow :=
  { scheme_code := r.scheme_code, date := r.date, nav := r.nav
    daily_return := r.daily_return, zscore := r.zscore
    volatility := r.volatility, drawdown := r.drawdown
    is_anomaly := decide (|r.zscore| > τ)
    severity := severityOf τ r.zscore
    anomaly_direction := directionOf τ r.zscore
    explanation := generateExplanation (decide (|r.zscore| > τ)) r.zscore
      r.daily_return (severityOf τ r.zscore) }

/-- Model of `detect_anomalies(df, zscore_threshold)`. -/
def detectAnomalies (τ : ℚ) (rows : List ScoredRow) : List ClassifiedRow :=
  rows.map (classifyRow τ)

/-- Model of `calculate_confidence_score`. -/
def calculate_confidence_score (zscore : ℚ) : ℚ :=
  let abs_zscore := |zscore|
  if abs_zscore < ZSCORE_THRESHOLD then 0
  else round2 (min ((abs_zscore - ZSCORE_THRESHOLD) / 3) 1)

/-- Minimum of a rational list (callers guarantee nonemptiness). -/
def listMin : List ℚ → ℚ
  | [] => 0
  | x :: xs => xs.foldl min x

/-- Model of `Series.mean()`: `nan` on an empty series, else the exact mean. -/
def seriesMean (xs : List ℚ) : Fl :=
  if xs.length = 0 then Fl.nan else Fl.fin (meanQ xs)

/-- Model of `Series.std()` (`ddof=1`): `nan` with fewer than two observations,
else the square root of the sample variance. -/
def seriesStd (S : NumEnv) (xs : List ℚ) : Fl :=
  if xs.length < 2 then Fl.nan else Fl.fin (S.sqrtQ (sampleVarQ xs))

/-- Python `x > 0` on a float: `False` for `nan`. -/
def Fl.gtZero : Fl → Bool
  | Fl.fin q => decide (0 < q)
  | Fl.pinf => true
  | _ => false

/-- The fraction of rows flagged anomalous (`df['is_anomaly'].mean()` on a
nonempty frame). -/
def anomalyRate (df : List ClassifiedRow) : ℚ :=
  (df.countP (·.is_anomaly) : ℚ) / df.length

/-- Model of `_calculate_risk_score`: the point system over the last row's
`volatility` (`iloc[-1]`; the caller guarantees a nonempty, date-sorted
frame, so the `none` branch is unreachable) and the mean anomaly rate. -/
def calculateRiskScore (df : List ClassifiedRow) : String :=
  let volatility := match df.getLast? with
    | some r => r.volatility
    | none => 0
  let anomaly_rate := anomalyRate df
  let score : ℤ := 0
  let score := if volatility > 3 / 10 then score + 3
    else if volatility > 2 / 10 then score + 2
    else if volatility > 1 / 10 then score + 1
    else score
  let score := if anomaly_rate > 1 / 10 then score + 3
    else if anomaly_rate > 1 / 20 then score + 2
    else if anomaly_rate > 1 / 50 then score + 1
    else score
  if score ≥ 5 then "High" else if score ≥ 3 then "Medium" else "Low"

/-- The dictionary built by `analyze_fund_risk`. -/
structure RiskMetrics where
  volatility : Fl
  max_drawdown : Fl
  sharpe_estimate : Fl
  anomaly_frequency : Fl
  avg_anomaly_magnitude : Fl
  risk_score : String
deriving DecidableEq

/-- Model of `analyze_fund_risk(df, scheme_code)`: filter the frame to the scheme,
return `None` on an empty selection, else sort by date and aggregate.  The
`daily_return` column of a processed frame has no `NaN`s, so its `dropna()`
is the identity here.  The Lean function is total: no input raises. -/
def analyzeFundRisk (S : NumEnv) (df : List ClassifiedRow)
    (scheme_code : String) : Option RiskMetrics :=
  let fund_df := df.filter fun r => r.scheme_code = scheme_code
  if fund_df.isEmpty then none
  else
    let fund_df := fund_df.insertionSort fun a b => a.date ≤ b.date
    let returns := fund_df.map (·.daily_return)
    let anomalous := fund_df.filter (·.is_anomaly)
    some
      { volatility := roundFl2 (Fl.mul (Fl.mul (seriesStd S returns)
          (Fl.fin S.sqrt252)) (Fl.fin 100))
        max_drawdown := Fl.fin (round2 (listMin (fund_df.map (·.drawdown)) * 100))
        sharpe_estimate := if (seriesStd S returns).gtZero then
            roundFl2 (Fl.mul (Fl.div (seriesMean returns) (seriesStd S returns))
              (Fl.fin S.sqrt252))
          else Fl.fin 0
        anomaly_frequency := Fl.fin (round2 (anomalyRate fund_df * 100))
        avg_anomaly_magnitude :=
          roundFl2 (seriesMean (anomalous.map fun r => |r.zscore|))
        risk_score := calculateRiskScore fund_df }

/-! ## Claim-side definitions -/

/-- The explanation format asserted by the specification: identical to the
source's `generate_explanation` except that its first clause reads
"{Significant|Moderate} {increase|decrease} detected", while the source
emits "{Significant|Moderate} NAV {increase|decrease} detected". -/
def claimedExplanationC4 (is_anom : Bool) (zscore daily_return_frac : ℚ)
    (severity : String) : String :=
  if !is_anom then "Normal market behavior"
  else
    let daily_return := daily_return_frac * 100
    let direction := if 0 < zscore then "increase" else "decrease"
    let severity_text := if severity = "high" then "Significant" else "Moderate"
    let es := [severity_text ++ " " ++ direction ++ " detected",
      "Unusual deviation from rolling mean (z-score: " ++ fmtFixed 1 |zscore| ++ ")"]
    let es := if |daily_return| > 3 then
      es ++ ["Daily return of " ++ fmtFixed 2 daily_return ++ "% exceeds normal range"]
      else es
    let es := if severity = "high" then es ++ ["Recommend immediate review"] else es
    String.intercalate ". " es

/-- The volatility bucket of the risk point system. -/
def volatilityPoints (vol : ℚ) : ℤ :=
  if vol > 3 / 10 then 3 else if vol > 2 / 10 then 2
  else if vol > 1 / 10 then 1 else 0

/-- The anomaly-rate bucket of the risk point system. -/
def anomalyRatePoints (rate : ℚ) : ℤ :=
  if rate > 1 / 10 then 3 else if rate > 1 / 20 then 2
  else if rate > 1 / 50 then 1 else 0

/-- The risk tier as a function of exactly two quantities: the last row's
fractional volatility and the series' anomaly rate. -/
def riskTierOf (vol rate : ℚ) : String :=
  if volatilityPoints vol + anomalyRatePoints rate ≥ 5 then "High"
  else if volatilityPoints vol + anomalyRatePoints rate ≥ 3 then "Medium"
  else "Low"

/-- Maximum of a rational list (callers guarantee nonemptiness); used to
state `running_max[i] = max(price[0..i])`. -/
def listMax : List ℚ → ℚ
  | [] => 0
  | x :: xs => xs.foldl max x

/-- A concrete numeric environment for instantiating the theorems on
concrete inputs (the identity stands in for the abstracted square root). -/
def S0 : NumEnv := ⟨fun q => q, 16⟩

/-! ## Basic lemmas about the float model and rounding -/

theorem Fl.sanitize_isFinite (x : Fl) : (Fl.sanitize x).isFinite = true := by
  cases x <;> rfl

theorem Fl.sanitize_of_not_isFinite {x : Fl} (h : x.isFinite = false) :
    Fl.sanitize x = Fl.fin 0 := by
  cases x <;> simp_all [Fl.isFinite, Fl.sanitize]

theorem Fl.sanitize_fillna0 (x : Fl) : Fl.sanitize (Fl.fillna0 x) = Fl.sanitize x := by
  cases x <;> rfl

theorem floor_le_rhe (q : ℚ) : ⌊q⌋ ≤ rhe q := by
  unfold rhe
  split_ifs <;> omega

theorem rhe_le_floor_add_one (q : ℚ) : rhe q ≤ ⌊q⌋ + 1 := by
  unfold rhe
  split_ifs <;> omega

theorem rhe_mono {x y : ℚ} (h : x ≤ y) : rhe x ≤ rhe y := by
  rcases lt_or_eq_of_le (Int.floor_le_floor h) with hlt | heq
  · have h1 := rhe_le_floor_add_one x
    have h2 := floor_le_rhe y
    omega
  · unfold rhe
    rw [← heq]
    split_ifs <;> first | omega | linarith

theorem rhe_nonneg {q : ℚ} (h : 0 ≤ q) : 0 ≤ rhe q := by
  have h1 := floor_le_rhe q
  have h2 : (0 : ℤ) ≤ ⌊q⌋ := Int.floor_nonneg.mpr h
  omega

theorem round2_mono {x y : ℚ} (h : x ≤ y) : round2 x ≤ round2 y := by
  unfold round2 roundDec
  have := rhe_mono (mul_le_mul_of_nonneg_right h (by norm_num : (0:ℚ) ≤ 10 ^ 2))
  have hc : ((rhe (x * 10 ^ 2) : ℚ)) ≤ ((rhe (y * 10 ^ 2) : ℚ)) := by exact_mod_cast this
  gcongr

theorem round2_nonneg {q : ℚ} (h : 0 ≤ q) : 0 ≤ round2 q := by
  unfold round2 roundDec
  have hz : (0 : ℤ) ≤ rhe (q * 10 ^ 2) := rhe_nonneg (by positivity)
  have : (0 : ℚ) ≤ (rhe (q * 10 ^ 2) : ℚ) := by exact_mod_cast hz
  positivity

theorem round2_one : round2 1 = 1 := by
  have h : rhe (1 * 10 ^ 2) = 100 := by
    unfold rhe
    norm_num
  unfold round2 roundDec
  rw [h]
  norm_num

/-- Case analysis of the sequential severity assignment. -/
theorem severityOf_cases (τ z : ℚ) :
    (severityOf τ z = "high" ↔ HIGH_SEVERITY_THRESHOLD < |z|)
    ∧ (severityOf τ z = "medium" ↔ (τ < |z| ∧ |z| ≤ HIGH_SEVERITY_THRESHOLD))
    ∧ (severityOf τ z = "normal" ↔ (|z| ≤ τ ∧ |z| ≤ HIGH_SEVERITY_THRESHOLD)) := by
  unfold severityOf
  by_cases h3 : |z| > HIGH_SEVERITY_THRESHOLD <;> by_cases hτ : |z| > τ <;>
    simp only [h3, hτ, if_true, if_false] <;>
    refine ⟨?_, ?_, ?_⟩ <;> simp_all

/-! ## Claim theorems -/

/-- C2: for every row classified by `detect_anomalies`, `is_anomaly` holds
exactly when `|zscore| > τ`; `severity` is `"high"` exactly when
`|zscore| > τ_h` (the fixed constant 3.0), `"medium"` exactly when
`τ < |zscore| ≤ τ_h`, and `"normal"` otherwise; the three tiers are total
(last conjunct) and mutually exclusive (the characterisations are disjoint
string values). -/
theorem C2_classifier_partition (τ : ℚ) (rows : List ScoredRow)
    (c : ClassifiedRow) (hc : c ∈ detectAnomalies τ rows) :
    (c.is_anomaly = true ↔ τ < |c.zscore|)
    ∧ (c.severity = "high" ↔ HIGH_SEVERITY_THRESHOLD < |c.zscore|)
    ∧ (c.severity = "medium" ↔ (τ < |c.zscore| ∧ |c.zscore| ≤ HIGH_SEVERITY_THRESHOLD))
    ∧ (c.severity = "normal" ↔ (|c.zscore| ≤ τ ∧ |c.zscore| ≤ HIGH_SEVERITY_THRESHOLD))
    ∧ (c.severity = "normal" ∨ c.severity = "medium" ∨ c.severity = "high") := by
  obtain ⟨r, _, rfl⟩ := List.mem_map.mp hc
  have hz : (classifyRow τ r).zscore = r.zscore := rfl
  have hsev : (classifyRow τ r).severity = severityOf τ r.zscore := rfl
  have hia : (classifyRow τ r).is_anomaly = decide (|r.zscore| > τ) := rfl
  obtain ⟨hh, hm, hn⟩ := severityOf_cases τ r.zscore
  refine ⟨?_, ?_, ?_, ?_, ?_⟩
  · rw [hia, hz]
    simp
  · rw [hsev, hz]; exact hh
  · rw [hsev, hz]; exact hm
  · rw [hsev, hz]; exact hn
  · rw [hsev]
    rcases le_or_lt |r.zscore| HIGH_SEVERITY_THRESHOLD with h3 | h3
    · rcases le_or_lt |r.zscore| τ with hτ | hτ
      · exact Or.inl (hn.mpr ⟨hτ, h3⟩)
      · exact Or.inr (Or.inl (hm.mpr ⟨hτ, h3⟩))
    · exact Or.inr (Or.inr (hh.mpr h3))

/-- Witness for C2 at a concrete classified row (`zscore = 5/2`,
threshold 2). -/
theorem C2_classifier_partition_witness :
    (classifyRow 2 ⟨"F", 0, 100, 0, 5 / 2, 0, 0⟩).severity = "medium" :=
  (C2_classifier_partition 2 [⟨"F", 0, 100, 0, 5 / 2, 0, 0⟩] _
      (List.mem_map.mpr ⟨_, List.mem_singleton.mpr rfl, rfl⟩)).2.2.1.mpr
    (by
      rw [show (classifyRow 2 ⟨"F", 0, 100, 0, 5 / 2, 0, 0⟩).zscore = 5 / 2 from rfl,
        abs_of_nonneg (by norm_num : (0:ℚ) ≤ 5 / 2)]
      norm_num [HIGH_SEVERITY_THRESHOLD])

/-- C6: `calculate_confidence_score` is 0 below the threshold, equals the
2-decimal rounding of `clamp((|z| − τ)/3, 0, 1)` at or above it, is
monotonically non-decreasing in `|z|`, and saturates at exactly 1 for
`|z| ≥ τ + 3`. -/
theorem C6_confidence_score :
    (∀ z : ℚ, |z| < ZSCORE_THRESHOLD → calculate_confidence_score z = 0)
    ∧ (∀ z : ℚ, ZSCORE_THRESHOLD ≤ |z| →
        calculate_confidence_score z
          = round2 (min (max ((|z| - ZSCORE_THRESHOLD) / 3) 0) 1))
    ∧ (∀ z w : ℚ, |z| ≤ |w| →
        calculate_confidence_score z ≤ calculate_confidence_score w)
    ∧ (∀ z : ℚ, ZSCORE_THRESHOLD + 3 ≤ |z| → calculate_confidence_score z = 1) := by
  have hthr : ZSCORE_THRESHOLD = 2 := rfl
  refine ⟨?_, ?_, ?_, ?_⟩
  · intro z h
    unfold calculate_confidence_score
    rw [if_pos h]
  · intro z h
    unfold calculate_confidence_score
    rw [if_neg (not_lt.mpr h), max_eq_left (by rw [hthr] at h ⊢; linarith)]
  · intro z w h
    unfold calculate_confidence_score
    rcases lt_or_le |w| ZSCORE_THRESHOLD with hw | hw
    · rw [if_pos (lt_of_le_of_lt h hw), if_pos hw]
    · rw [if_neg (not_lt.mpr hw)]
      rcases lt_or_le |z| ZSCORE_THRESHOLD with hz | hz
      · rw [if_pos hz]
        exact round2_nonneg (le_min (by rw [hthr] at hw ⊢; linarith) (by norm_num))
      · rw [if_neg (not_lt.mpr hz)]
        exact round2_mono (min_le_min (by rw [hthr] at hz ⊢; linarith) le_rfl)
  · intro z h
    unfold calculate_confidence_score
    rw [hthr] at h
    rw [if_neg (by rw [hthr]; push_neg; linarith),
      min_eq_right (by rw [hthr]; linarith)]
    exact round2_one

/-- Witness for C6: saturation at `|z| = 6 ≥ τ + 3`. -/
theorem C6_confidence_score_witness : calculate_confidence_score 6 = 1 :=
  C6_confidence_score.2.2.2 6 (by rw [abs_of_nonneg] <;> norm_num [ZSCORE_THRESHOLD])

/-- C9: for every frame and scheme code whose selection is empty,
`analyze_fund_risk` returns the absent result.  The Lean embedding is a
total function, so no exception is possible on any input. -/
theorem C9_empty_series_none (S : NumEnv) (df : List ClassifiedRow)
    (code : String) (h : df.filter (fun r => r.scheme_code = code) = []) :
    analyzeFundRisk S df code = none := by
  unfold analyzeFundRisk
  rw [h]
  rfl

/-- Witness for C9: a frame holding only another scheme's rows. -/
theorem C9_empty_series_none_witness :
    analyzeFundRisk S0
      [⟨"F", 0, 100, 0, 0, 0, 0, false, "normal", "none", "Normal market behavior"⟩]
      "G" = none :=
  C9_empty_series_none S0 _ "G" (by simp)

/-- C10: `_calculate_risk_score` is a function of exactly two quantities —
the last row's fractional volatility and the series-wide anomaly rate —
bucketed and summed as `riskTierOf` states; any two series agreeing on
those two quantities get the same tier, so earlier rows' volatility never
influences it. -/
theorem C10_risk_tier_two_quantities :
    (∀ (df : List ClassifiedRow) (r : ClassifiedRow), df.getLast? = some r →
        calculateRiskScore df = riskTierOf r.volatility (anomalyRate df))
    ∧ (∀ v rate : ℚ,
        (riskTierOf v rate = "High" ↔
          5 ≤ volatilityPoints v + anomalyRatePoints rate)
        ∧ (riskTierOf v rate = "Medium" ↔
          (3 ≤ volatilityPoints v + anomalyRatePoints rate
            ∧ volatilityPoints v + anomalyRatePoints rate < 5)))
    ∧ (∀ (df df' : List ClassifiedRow) (r r' : ClassifiedRow),
        df.getLast? = some r → df'.getLast? = some r' →
        r.volatility = r'.volatility → anomalyRate df = anomalyRate df' →
        calculateRiskScore df = calculateRiskScore df') := by
  have key : ∀ (df : List ClassifiedRow) (r : ClassifiedRow), df.getLast? = some r →
      calculateRiskScore df = riskTierOf r.volatility (anomalyRate df) := by
    intro df r h
    simp only [calculateRiskScore, riskTierOf, volatilityPoints, anomalyRatePoints, h]
    split_ifs <;> first | rfl | omega
  refine ⟨key, ?_, ?_⟩
  · intro v rate
    unfold riskTierOf
    constructor
    · split_ifs with h1 h2 <;> simp_all
    · split_ifs with h1 h2 <;> simp_all
  · intro df df' r r' h1 h2 hv hr
    rw [key df r h1, key df' r' h2, hv, hr]

/-- Witness for C10 at a one-row series. -/
theorem C10_risk_tier_two_quantities_witness :
    calculateRiskScore [⟨"F", 0, 100, 0, 0, 35 / 100, 0, true, "medium", "up", "e"⟩]
      = riskTierOf
          (⟨"F", 0, 100, 0, 0, 35 / 100, 0, true, "medium", "up", "e"⟩ : ClassifiedRow).volatility
          (anomalyRate [⟨"F", 0, 100, 0, 0, 35 / 100, 0, true, "medium", "up", "e"⟩]) :=
  C10_risk_tier_two_quantities.1 _ _ rfl

/-- C5, counterexample: the module-level `_processed_cache` makes
`compute_rolling_metrics` history-dependent — after a first call on table
`[("F",[1])]`, a call on `[("F",[2])]` returns the cached first result,
which differs from the processed form of its own input. -/
theorem C5_counterexample :
    (computeRollingMetricsCached S0 20
        (computeRollingMetricsCached S0 20 none [("F", [1])]).2 [("F", [2])]).1
      ≠ computeRollingMetricsTable S0 20 [("F", [2])] := by
  intro h
  have h2 := congrArg (fun t : ProcessedTable =>
    ((t.headD ("", [])).2.headD ⟨0, Fl.nan, Fl.nan, Fl.nan, Fl.nan, Fl.nan, 0, Fl.nan⟩).nav) h
  have h3 : (1 : ℚ) = 2 := h2
  norm_num at h3

/-- C5, amended: with an empty cache the computation is a pure function of
the input table alone (so identical inputs always give identical outputs),
but once the cache holds a table every later call returns that table
unchanged, regardless of its own input. -/
theorem C5_cache_semantics :
    (∀ (S : NumEnv) (W : ℕ) (tbl : Table),
        (computeRollingMetricsCached S W none tbl).1
          = computeRollingMetricsTable S W tbl)
    ∧ (∀ (S : NumEnv) (W : ℕ) (t : ProcessedTable) (tbl : Table),
        (computeRollingMetricsCached S W (some t) tbl).1 = t) :=
  ⟨fun _ _ _ => rfl, fun _ _ _ _ => rfl⟩

/-- C8: evaluating `analyze_fund_risk` on a fund whose rows carry no
anomaly flag shows `avg_anomaly_magnitude = NaN` — the mean of the empty
anomalous selection — rather than the 0 the specification promises. -/
theorem C8_empty_anomaly_mean_is_nan :
    (analyzeFundRisk S0
        [⟨"F", 0, 100, 0, 0, 0, 0, false, "normal", "none", "Normal market behavior"⟩]
        "F").map (·.avg_anomaly_magnitude) = some Fl.nan
    ∧ Fl.nan ≠ Fl.fin 0 := ⟨rfl, by decide⟩

/-! ## Concrete evaluation helpers for the explanation claims -/

theorem abs_five_halves : |(5 / 2 : ℚ)| = 5 / 2 := abs_of_nonneg (by norm_num)

theorem rhe_of_five_halves_scaled : rhe ((5 / 2 : ℚ) * 10 ^ 1) = 25 := by
  have h : (5 / 2 : ℚ) * 10 ^ 1 = 25 := by norm_num
  rw [h]
  unfold rhe
  norm_num

theorem fmtFixed_one_five_halves : fmtFixed 1 (5 / 2 : ℚ) = "2.5" := by
  unfold fmtFixed
  rw [rhe_of_five_halves_scaled]
  rfl

theorem severityOf_two_five_halves : severityOf 2 (5 / 2) = "medium" := by
  simp only [severityOf, HIGH_SEVERITY_THRESHOLD, abs_five_halves]
  norm_num

theorem generateExplanation_eval_med :
    generateExplanation true (5 / 2) 0 "medium"
      = "Moderate NAV increase detected. Unusual deviation from rolling mean (z-score: 2.5)" := by
  simp only [generateExplanation, Bool.not_true, Bool.false_eq_true, if_false,
    abs_five_halves, fmtFixed_one_five_halves]
  norm_num
  rfl

theorem claimedExplanationC4_eval_med :
    claimedExplanationC4 true (5 / 2) 0 "medium"
      = "Moderate increase detected. Unusual deviation from rolling mean (z-score: 2.5)" := by
  simp only [claimedExplanationC4, Bool.not_true, Bool.false_eq_true, if_false,
    abs_five_halves, fmtFixed_one_five_halves]
  norm_num
  rfl

/-- C4, counterexample: at an anomalous row with `zscore = 5/2`, the code
emits "Moderate NAV increase detected. …" while the claim's clause template
(without the "NAV" token) prescribes "Moderate increase detected. …". -/
theorem C4_counterexample :
    (classifyRow 2 ⟨"F", 0, 100, 0, 5 / 2, 0, 0⟩).explanation
      ≠ claimedExplanationC4 true (5 / 2) 0 "medium" := by
  have h1 : (classifyRow 2 ⟨"F", 0, 100, 0, 5 / 2, 0, 0⟩).explanation
      = generateExplanation (decide (|(5 / 2 : ℚ)| > 2)) (5 / 2) 0
          (severityOf 2 (5 / 2)) := rfl
  have hdec : decide (|(5 / 2 : ℚ)| > 2) = true :=
    decide_eq_true (by rw [abs_five_halves]; norm_num)
  rw [h1, hdec, severityOf_two_five_halves, generateExplanation_eval_med,
    claimedExplanationC4_eval_med]
  decide

/-- C4, amended: the explanation contract as the code implements it — the
first clause is "{Significant|Moderate} NAV {increase|decrease} detected"
(the claim omitted the "NAV" token); everything else is as claimed: fixed
clause order joined by ". ", the z-score clause with `|zscore|` to one
decimal, the daily-return clause (value to two decimals) only when
`|daily_return|` as a percentage exceeds 3, and "Recommend immediate
review" only for high severity; non-anomalous rows get exactly
"Normal market behavior". -/
theorem C4_explanation_contract (τ : ℚ) (r : ScoredRow) :
    ((classifyRow τ r).is_anomaly = false →
      (classifyRow τ r).explanation = "Normal market behavior")
    ∧ ((classifyRow τ r).is_anomaly = true →
      (classifyRow τ r).explanation = String.intercalate ". "
        ([(if (classifyRow τ r).severity = "high" then "Significant" else "Moderate")
            ++ " NAV " ++ (if 0 < r.zscore then "increase" else "decrease")
            ++ " detected",
          "Unusual deviation from rolling mean (z-score: "
            ++ fmtFixed 1 |r.zscore| ++ ")"]
          ++ (if |r.daily_return * 100| > 3 then
              ["Daily return of " ++ fmtFixed 2 (r.daily_return * 100)
                ++ "% exceeds normal range"]
            else [])
          ++ (if (classifyRow τ r).severity = "high" then
              ["Recommend immediate review"]
            else []))) := by
  have hexp : (classifyRow τ r).explanation
      = generateExplanation (classifyRow τ r).is_anomaly r.zscore r.daily_return
          (classifyRow τ r).severity := rfl
  constructor
  · intro h
    rw [hexp, h]
    rfl
  · intro h
    rw [hexp, h]
    simp only [generateExplanation, Bool.not_true, Bool.false_eq_true, if_false]
    split_ifs <;> simp [List.append_assoc]

/-- Witness for C4 at the concrete anomalous row used throughout. -/
theorem C4_explanation_contract_witness :
    (classifyRow 2 ⟨"F", 0, 100, 0, 5 / 2, 0, 0⟩).explanation
      = "Moderate NAV increase detected. Unusual deviation from rolling mean (z-score: 2.5)" := by
  have hz : (classifyRow 2 (⟨"F", 0, 100, 0, 5 / 2, 0, 0⟩ : ScoredRow)).zscore
      = 5 / 2 := rfl
  have hsev : (classifyRow 2 (⟨"F", 0, 100, 0, 5 / 2, 0, 0⟩ : ScoredRow)).severity
      = "medium" := severityOf_two_five_halves
  have hia : (classifyRow 2 (⟨"F", 0, 100, 0, 5 / 2, 0, 0⟩ : ScoredRow)).is_anomaly
      = true := decide_eq_true (by rw [abs_five_halves]; norm_num)
  have h := (C4_explanation_contract 2 ⟨"F", 0, 100, 0, 5 / 2, 0, 0⟩).2 hia
  rw [h]
  simp only [hz, hsev, abs_five_halves, fmtFixed_one_five_halves]
  norm_num
  rfl

/-! ## Support lemmas for the rolling-metrics claims -/

theorem computeEntity_length (S : NumEnv) (W : ℕ) (navs : List ℚ) :
    (computeRollingMetricsEntity S W navs).length = navs.length := by
  simp [computeRollingMetricsEntity]

theorem computeEntity_getElem (S : NumEnv) (W : ℕ) (navs : List ℚ) (i : ℕ)
    (h : i < navs.length) :
    (computeRollingMetricsEntity S W navs)[i]?
      = some (scoredRowAt S W navs (pctChangeQ navs) i) := by
  simp [computeRollingMetricsEntity, List.getElem?_map, List.getElem?_range, h]

theorem computeEntity_getElem_inv {S : NumEnv} {W : ℕ} {navs : List ℚ} {i : ℕ}
    {row : ScoredEntRow}
    (h : (computeRollingMetricsEntity S W navs)[i]? = some row) :
    i < navs.length ∧ row = scoredRowAt S W navs (pctChangeQ navs) i := by
  by_cases hi : i < navs.length
  · rw [computeEntity_getElem S W navs i hi] at h
    exact ⟨hi, (Option.some_inj.mp h).symm⟩
  · rw [List.getElem?_eq_none (by rw [computeEntity_length]; omega)] at h
    cases h

theorem pctAux_length (prev : ℚ) (l : List ℚ) :
    (pctAux prev l).length = l.length := by
  induction l generalizing prev with
  | nil => rfl
  | cons p rest ih => simp [pctAux, ih]

theorem pctAux_all_fin {prev : ℚ} {l : List ℚ} (hprev : 0 < prev)
    (hl : ∀ p ∈ l, 0 < p) : ∀ x ∈ pctAux prev l, ∃ q, x = Fl.fin q := by
  induction l generalizing prev with
  | nil => simp [pctAux]
  | cons p rest ih =>
    intro x hx
    rcases List.mem_cons.mp hx with rfl | hx
    · refine ⟨p / prev - 1, ?_⟩
      simp [Fl.div, Fl.sub, ne_of_gt hprev]
    · exact ih (hl p (by simp)) (fun q hq => hl q (by simp [hq])) x hx

theorem returns_getD_fin {navs : List ℚ} (hpos : ∀ p ∈ navs, 0 < p) {i : ℕ}
    (h1 : 1 ≤ i) (h2 : i < navs.length) :
    ∃ q, (pctChangeQ navs).getD i Fl.nan = Fl.fin q := by
  cases navs with
  | nil => simp at h2
  | cons p rest =>
    obtain ⟨j, rfl⟩ : ∃ j, i = j + 1 := ⟨i - 1, by omega⟩
    have hjlen : j < (pctAux p rest).length := by
      rw [pctAux_length]
      simpa using h2
    have hget : (pctChangeQ (p :: rest)).getD (j + 1) Fl.nan
        = (pctAux p rest).getD j Fl.nan := rfl
    rw [hget, List.getD_eq_getElem _ _ hjlen]
    exact pctAux_all_fin (hpos p (by simp)) (fun q hq => hpos q (by simp [hq])) _
      (List.getElem_mem hjlen)

theorem validObs_at_zero_short (navs : List ℚ) (hne : navs ≠ []) (W : ℕ) :
    (validObs (windowAt (pctChangeQ navs) W 0)).length < 5 := by
  cases navs with
  | nil => exact absurd rfl hne
  | cons p rest =>
    cases W with
    | zero => simp [pctChangeQ, windowAt, validObs]
    | succ W => simp [pctChangeQ, windowAt, validObs, Fl.isNan]

theorem foldl_add_fin {xs : List Fl} (hxs : ∀ x ∈ xs, x.isFinite = true) :
    ∀ a : ℚ, ∃ q, xs.foldl Fl.add (Fl.fin a) = Fl.fin q := by
  induction xs with
  | nil => exact fun a => ⟨a, rfl⟩
  | cons x t ih =>
    intro a
    obtain ⟨qx, rfl⟩ : ∃ qx, x = Fl.fin qx := by
      have hx := hxs x (by simp)
      cases x <;> simp_all [Fl.isFinite]
    exact ih (fun y hy => hxs y (by simp [hy])) (a + qx)

theorem rollingMean_fin_of_valid {W : ℕ} {returns : List Fl} {i : ℕ}
    (hlen : ¬ (validObs (windowAt returns W i)).length < 5)
    (hall : (validObs (windowAt returns W i)).all Fl.isFinite = true) :
    ∃ m, rollingMeanAt W returns i = Fl.fin m := by
  unfold rollingMeanAt
  rw [if_neg hlen]
  obtain ⟨q, hq⟩ := foldl_add_fin (fun x hx => List.all_eq_true.mp hall x hx) 0
  have hlen0 : ((validObs (windowAt returns W i)).length : ℚ) ≠ 0 := by
    exact_mod_cast (by omega : (validObs (windowAt returns W i)).length ≠ 0)
  refine ⟨q / (validObs (windowAt returns W i)).length, ?_⟩
  rw [show sumFl (validObs (windowAt returns W i)) = Fl.fin q from hq]
  simp [Fl.div, hlen0]

theorem sanitize_fillna0_div_degenerate (x s : Fl)
    (hs : s = Fl.fin 0 ∨ s.isFinite = false) :
    Fl.sanitize (Fl.fillna0 (Fl.div x s)) = Fl.fin 0 := by
  rcases hs with rfl | hs
  · cases x with
    | fin a =>
      simp only [Fl.div]
      rw [if_neg (by norm_num)]
      split_ifs <;> rfl
    | nan => rfl
    | pinf => rfl
    | ninf => rfl
  · cases s <;> simp_all [Fl.isFinite] <;> cases x <;> rfl

/-! ## Support lemmas for the drawdown claim -/

theorem getD_le_cummaxAt (navs : List ℚ) (i : ℕ) :
    navs.getD i 0 ≤ cummaxAt navs i := by
  cases i with
  | zero => exact le_rfl
  | succ j => exact le_max_right _ _

theorem cummaxAt_le_succ (navs : List ℚ) (i : ℕ) :
    cummaxAt navs i ≤ cummaxAt navs (i + 1) := le_max_left _ _

theorem cummaxAt_pos {navs : List ℚ} (hpos : ∀ p ∈ navs, 0 < p) {i : ℕ}
    (hi : i < navs.length) : 0 < cummaxAt navs i := by
  have h1 : navs.getD i 0 = navs[i] := List.getD_eq_getElem navs 0 hi
  have h2 : 0 < navs[i] := hpos _ (List.getElem_mem hi)
  have := getD_le_cummaxAt navs i
  rw [h1] at this
  linarith

theorem listMax_append_singleton {xs : List ℚ} (hxs : xs ≠ []) (a : ℚ) :
    listMax (xs ++ [a]) = max (listMax xs) a := by
  cases xs with
  | nil => exact absurd rfl hxs
  | cons x t => simp [listMax, List.foldl_append]

theorem listMax_take_eq_cummaxAt (navs : List ℚ) :
    ∀ i, i < navs.length → listMax (navs.take (i + 1)) = cummaxAt navs i := by
  intro i
  induction i with
  | zero =>
    intro hi
    rw [List.take_succ, List.getElem?_eq_getElem hi]
    have h0 : navs.take 0 = [] := rfl
    rw [h0]
    simp [listMax, cummaxAt, List.getD_eq_getElem navs 0 hi, List.getElem?_eq_getElem hi]
  | succ j ihj =>
    intro hi
    have hj : j < navs.length := by omega
    rw [List.take_succ, List.getElem?_eq_getElem hi]
    have hne : navs.take (j + 1) ≠ [] := by
      have : (navs.take (j + 1)).length = j + 1 := by
        rw [List.length_take]
        omega
      intro hcon
      rw [hcon] at this
      simp at this
    simp only [Option.toList_some]
    rw [listMax_append_singleton hne, ihj hj]
    simp [cummaxAt, List.getD_eq_getElem navs 0 hi, List.getElem?_eq_getElem hi]

/-! ## The rolling-metrics claims -/

/-- C1: for every input table, every emitted row of the processed output
has finite `daily_return`, `rolling_mean`, `rolling_std`, `zscore`,
`volatility` and `drawdown` — never `NaN` or `±∞` (first conjunct, over
whole tables); and whenever a raw column value is non-finite, the emitted
value is exactly 0 (second conjunct, per entity series). -/
theorem C1_no_nonfinite_output :
    (∀ (S : NumEnv) (W : ℕ) (tbl : Table) (ent : String × List ScoredEntRow),
      ent ∈ computeRollingMetricsTable S W tbl →
      ∀ row ∈ ent.2,
        row.daily_return.isFinite = true ∧ row.rolling_mean.isFinite = true
          ∧ row.rolling_std.isFinite = true ∧ row.zscore.isFinite = true
          ∧ row.volatility.isFinite = true ∧ row.drawdown.isFinite = true)
    ∧ (∀ (S : NumEnv) (W : ℕ) (navs : List ℚ) (i : ℕ) (row : ScoredEntRow),
      (computeRollingMetricsEntity S W navs)[i]? = some row →
        (((pctChangeQ navs).getD i Fl.nan).isFinite = false →
          row.daily_return = Fl.fin 0)
        ∧ ((rollingMeanAt W (pctChangeQ navs) i).isFinite = false →
          row.rolling_mean = Fl.fin 0)
        ∧ ((rollingStdAt S W (pctChangeQ navs) i).isFinite = false →
          row.rolling_std = Fl.fin 0)
        ∧ ((zscoreRawAt S W (pctChangeQ navs) i).isFinite = false →
          row.zscore = Fl.fin 0)
        ∧ ((volatilityRawAt S W (pctChangeQ navs) i).isFinite = false →
          row.volatility = Fl.fin 0)
        ∧ ((drawdownRawAt navs i).isFinite = false →
          row.drawdown = Fl.fin 0)) := by
  constructor
  · intro S W tbl ent hent row hrow
    obtain ⟨e, _, rfl⟩ := List.mem_map.mp hent
    obtain ⟨j, _, rfl⟩ := List.mem_map.mp hrow
    refine ⟨Fl.sanitize_isFinite _, Fl.sanitize_isFinite _, Fl.sanitize_isFinite _,
      ?_, Fl.sanitize_isFinite _, Fl.sanitize_isFinite _⟩
    show (Fl.sanitize (Fl.fillna0 (zscoreRawAt S W (pctChangeQ e.2) j))).isFinite = true
    rw [Fl.sanitize_fillna0]
    exact Fl.sanitize_isFinite _
  · intro S W navs i row h
    obtain ⟨hi, rfl⟩ := computeEntity_getElem_inv h
    refine ⟨fun hnf => Fl.sanitize_of_not_isFinite hnf,
      fun hnf => Fl.sanitize_of_not_isFinite hnf,
      fun hnf => Fl.sanitize_of_not_isFinite hnf, ?_,
      fun hnf => Fl.sanitize_of_not_isFinite hnf,
      fun hnf => Fl.sanitize_of_not_isFinite hnf⟩
    intro hnf
    show Fl.sanitize (Fl.fillna0 (zscoreRawAt S W (pctChangeQ navs) i)) = Fl.fin 0
    rw [Fl.sanitize_fillna0]
    exact Fl.sanitize_of_not_isFinite hnf

/-- Witness for C1 on the one-row table `[("F", [1])]`. -/
theorem C1_no_nonfinite_output_witness :
    ((⟨1, Fl.fin 0, Fl.fin 0, Fl.fin 0, Fl.fin 0, Fl.fin 0, 1,
        Fl.fin ((1 - 1) / 1)⟩ : ScoredEntRow)).zscore.isFinite = true :=
  (C1_no_nonfinite_output.1 S0 20 [("F", [1])]
      ("F", computeRollingMetricsEntity S0 20 [1])
      (List.mem_map.mpr ⟨("F", [1]), List.mem_singleton.mpr rfl, rfl⟩)
      ⟨1, Fl.fin 0, Fl.fin 0, Fl.fin 0, Fl.fin 0, Fl.fin 0, 1, Fl.fin ((1 - 1) / 1)⟩
      (List.mem_map.mpr ⟨0, List.mem_range.mpr (by norm_num), rfl⟩)).2.2.2.1

/-- C3: the z-score zero policy.  With fewer than five return observations
in the trailing window the rolling std is undefined (`NaN`, first
conjunct); whenever the rolling std is 0 or non-finite, the emitted
`zscore` is exactly `0` (second conjunct); otherwise — std finite and
nonzero — the emitted `zscore` is exactly
`(daily_return − rolling_mean) / rolling_std` on the emitted finite values
(third conjunct; prices positive per the input contract). -/
theorem C3_zscore_policy (S : NumEnv) (W : ℕ) (navs : List ℚ)
    (hpos : ∀ p ∈ navs, 0 < p) (i : ℕ) (row : ScoredEntRow)
    (h : (computeRollingMetricsEntity S W navs)[i]? = some row) :
    ((validObs (windowAt (pctChangeQ navs) W i)).length < 5 →
      rollingStdAt S W (pctChangeQ navs) i = Fl.nan)
    ∧ ((rollingStdAt S W (pctChangeQ navs) i = Fl.fin 0
        ∨ (rollingStdAt S W (pctChangeQ navs) i).isFinite = false) →
      row.zscore = Fl.fin 0)
    ∧ (∀ s : ℚ, rollingStdAt S W (pctChangeQ navs) i = Fl.fin s → s ≠ 0 →
      ∃ r m, row.daily_return = Fl.fin r ∧ row.rolling_mean = Fl.fin m
        ∧ row.rolling_std = Fl.fin s ∧ row.zscore = Fl.fin ((r - m) / s)) := by
  obtain ⟨hi, rfl⟩ := computeEntity_getElem_inv h
  refine ⟨?_, ?_, ?_⟩
  · intro hlt
    simp only [rollingStdAt]
    rw [if_pos hlt]
  · intro hs
    show Fl.sanitize (Fl.fillna0 (zscoreRawAt S W (pctChangeQ navs) i)) = Fl.fin 0
    unfold zscoreRawAt
    exact sanitize_fillna0_div_degenerate _ _ hs
  · intro s hs hs0
    by_cases h5 : (validObs (windowAt (pctChangeQ navs) W i)).length < 5
    · simp only [rollingStdAt, if_pos h5] at hs
      cases hs
    by_cases hall : (validObs (windowAt (pctChangeQ navs) W i)).all Fl.isFinite = true
    case neg =>
      simp only [rollingStdAt, if_neg h5] at hs
      rw [if_neg (by simp_all)] at hs
      cases hs
    case pos =>
      obtain ⟨m, hm⟩ := rollingMean_fin_of_valid h5 hall
      have h1le : 1 ≤ i := by
        by_contra hlt
        have hz : i = 0 := by omega
        subst hz
        refine h5 (validObs_at_zero_short navs ?_ W)
        intro hnil
        rw [hnil] at hi
        simp at hi
      obtain ⟨r, hr⟩ := returns_getD_fin hpos h1le hi
      refine ⟨r, m, ?_, ?_, ?_, ?_⟩
      · show Fl.sanitize ((pctChangeQ navs).getD i Fl.nan) = Fl.fin r
        rw [hr]
        rfl
      · show Fl.sanitize (rollingMeanAt W (pctChangeQ navs) i) = Fl.fin m
        rw [hm]
        rfl
      · show Fl.sanitize (rollingStdAt S W (pctChangeQ navs) i) = Fl.fin s
        rw [hs]
        rfl
      · show Fl.sanitize (Fl.fillna0 (zscoreRawAt S W (pctChangeQ navs) i))
          = Fl.fin ((r - m) / s)
        unfold zscoreRawAt
        rw [hr, hm, hs]
        simp [Fl.sub, Fl.div, hs0, Fl.fillna0, Fl.sanitize]

/-- Witness for C3: in a two-price series the first row's window has no
valid return observation, so the rolling std is `NaN`. -/
theorem C3_zscore_policy_witness :
    rollingStdAt S0 20 (pctChangeQ [1, 1]) 0 = Fl.nan :=
  (C3_zscore_policy S0 20 [1, 1]
      (by intro p hp; simp at hp; subst hp; norm_num) 0
      ⟨1, Fl.fin 0, Fl.fin 0, Fl.fin 0, Fl.fin 0, Fl.fin 0, 1,
        Fl.fin ((1 - 1) / 1)⟩ rfl).1
    (by decide)

/-- C7: for positive prices, `running_max[i] = max(price[0..i])` (first
conjunct), the running maximum is non-decreasing along the series (second
conjunct, consecutive rows — hence non-decreasing throughout by
transitivity), and every emitted drawdown equals
`(price − running_max) / running_max` and is `≤ 0` (third conjunct). -/
theorem C7_drawdown_invariants (S : NumEnv) (W : ℕ) (navs : List ℚ)
    (hpos : ∀ p ∈ navs, 0 < p) :
    (∀ i, i < navs.length →
      (scoredRowAt S W navs (pctChangeQ navs) i).cummax
        = listMax (navs.take (i + 1)))
    ∧ List.Chain' (fun a b => a.cummax ≤ b.cummax)
        (computeRollingMetricsEntity S W navs)
    ∧ (∀ row ∈ computeRollingMetricsEntity S W navs,
        row.drawdown = Fl.fin ((row.nav - row.cummax) / row.cummax)
        ∧ (row.nav - row.cummax) / row.cummax ≤ 0) := by
  refine ⟨?_, ?_, ?_⟩
  · intro i hi
    exact (listMax_take_eq_cummaxAt navs i hi).symm
  · unfold computeRollingMetricsEntity
    rw [List.chain'_map]
    cases hn : navs.length with
    | zero => simp
    | succ n =>
      rw [List.chain'_range_succ]
      intro m _
      exact cummaxAt_le_succ navs m
  · intro row hrow
    obtain ⟨j, hj, rfl⟩ := List.mem_map.mp hrow
    have hjl : j < navs.length := List.mem_range.mp hj
    have hc : 0 < cummaxAt navs j := cummaxAt_pos hpos hjl
    have hle : navs.getD j 0 ≤ cummaxAt navs j := getD_le_cummaxAt navs j
    constructor
    · show Fl.sanitize (drawdownRawAt navs j)
        = Fl.fin ((navs.getD j 0 - cummaxAt navs j) / cummaxAt navs j)
      simp [drawdownRawAt, Fl.sub, Fl.div, ne_of_gt hc, Fl.sanitize]
    · show (navs.getD j 0 - cummaxAt navs j) / cummaxAt navs j ≤ 0
      exact div_nonpos_of_nonpos_of_nonneg (by linarith) (by linarith)

/-- Witness for C7 on the one-price series `[1]`. -/
theorem C7_drawdown_invariants_witness :
    (scoredRowAt S0 20 [1] (pctChangeQ [1]) 0).cummax = listMax ([1].take 1) :=
  (C7_drawdown_invariants S0 20 [1]
      (by intro p hp; simp at hp; subst hp; norm_num)).1 0 (by norm_num)

end FundAnomaly
